import Mathlib

/-!
Verification of the metrics abstraction layer of jkremser/bumblebee
(pkg/stats/stats.go): the LabelSet hasher, the Set instrument (delta
counter), the Gauge instrument, and the Prometheus provider constructor,
shallowly embedded in Lean.
-/

namespace Bumblebee

/-- A decoded label mapping (Go `map[string]string`), modelled as the list of
its key/value pairs in some enumeration order.  Two lists that are
permutations of one another represent the same mapping content. -/
abbrev LabelSet := List (String × String)

/-- `transformLabels` (stats.go): turns the decoded key mapping into the list
of backend attributes, rendering each value with `fmt.Sprint` (the identity
on values that are already strings, modelled by `toString`). -/
def transformLabels (decodedKey : LabelSet) : List (String × String) :=
  decodedKey.map (fun kv => (kv.1, toString kv.2))

/-- Canonical order on key/value pairs: by key, ties broken by value. -/
def labelR (p q : String × String) : Prop :=
  p.1 < q.1 ∨ (p.1 = q.1 ∧ p.2 ≤ q.2)

instance : DecidableRel labelR := fun p q => by
  unfold labelR; infer_instance

instance : IsTotal (String × String) labelR where
  total p q := by
    rcases lt_trichotomy p.1 q.1 with h | h | h
    · exact Or.inl (Or.inl h)
    · rcases le_total p.2 q.2 with h2 | h2
      · exact Or.inl (Or.inr ⟨h, h2⟩)
      · exact Or.inr (Or.inr ⟨h.symm, h2⟩)
    · exact Or.inr (Or.inl h)

instance : IsTrans (String × String) labelR where
  trans p q s hpq hqs := by
    rcases hpq with h1 | ⟨e1, l1⟩
    · rcases hqs with h2 | ⟨e2, l2⟩
      · exact Or.inl (lt_trans h1 h2)
      · exact Or.inl (e2 ▸ h1)
    · rcases hqs with h2 | ⟨e2, l2⟩
      · exact Or.inl (e1 ▸ h2)
      · exact Or.inr ⟨e1.trans e2, le_trans l1 l2⟩

instance : IsAntisymm (String × String) labelR where
  antisymm p q hpq hqp := by
    rcases hpq with h1 | ⟨e1, l1⟩
    · rcases hqp with h2 | ⟨e2, l2⟩
      · exact absurd h2 (lt_asymm h1)
      · exact absurd h1 (e2 ▸ lt_irrefl _)
    · rcases hqp with h2 | ⟨e2, l2⟩
      · exact absurd h2 (e1 ▸ lt_irrefl _)
      · exact Prod.ext e1 (le_antisymm l1 l2)

/-- Modelled from the spec: the repository calls
`hashstructure.Hash(decodedKey, hashstructure.FormatV2, nil)`, a library not
part of this repository.  Per the spec, the hash is applied to a canonical
structural representation of the mapping (order-independent, and distinct
content maps to distinct keys); we model the LabelKey as that canonical
representation itself: the pairs sorted in the canonical order. -/
def Hash (decodedKey : LabelSet) : List (String × String) :=
  List.insertionSort labelR decodedKey

/-- The identity key of a label mapping. -/
abbrev LabelKey := List (String × String)

/-- The per-instrument `counterMap map[uint64]int64` of `setCounter`,
modelled as an association list from LabelKey to the last absolute value.
Lookup of an absent key yields `none` (Go reads return the zero value 0,
recovered below with `Option.getD 0`). -/
abbrev CounterState := List (LabelKey × Int)

def lookupCounter : CounterState → LabelKey → Option Int
  | [], _ => none
  | e :: rest, k => if e.1 = k then some e.2 else lookupCounter rest k

def storeCounter : CounterState → LabelKey → Int → CounterState
  | [], k, v => [(k, v)]
  | e :: rest, k, v =>
      if e.1 = k then (k, v) :: rest else e :: storeCounter rest k v

/-- Result of one `setCounter.Set` call: the updated map, and the backend
`counter.Add` call it performed, if any (delta and attribute list). -/
structure SetResult where
  counterMap : CounterState
  backendAdd : Option (Int × List (String × String))
deriving DecidableEq

/-- `setCounter.Set` (stats.go lines 130-149): compute the label attributes
and the key hash, look up the previous absolute value (defaulting to 0),
return without a backend call when the value is unchanged, otherwise record
the new value and add the signed difference to the backend counter. -/
def setCounterSet (counterMap : CounterState) (intVal : Int)
    (decodedKey : LabelSet) : SetResult :=
  let labels := transformLabels decodedKey
  let keyHash := Hash decodedKey
  let oldVal := (lookupCounter counterMap keyHash).getD 0
  let diff := intVal - oldVal
  if oldVal = intVal then
    { counterMap := counterMap, backendAdd := none }
  else
    { counterMap := storeCounter counterMap keyHash intVal,
      backendAdd := some (diff, labels) }

/-- Running a sequence of `Set` calls with a fixed label mapping, collecting
the deltas of the backend calls actually made. -/
def runSets (decodedKey : LabelSet) : List Int → CounterState →
    CounterState × List Int
  | [], st => (st, [])
  | v :: vs, st =>
    let r := setCounterSet st v decodedKey
    let rest := runSets decodedKey vs r.counterMap
    (rest.1, (match r.backendAdd with
              | none => []
              | some d => [d.1]) ++ rest.2)

lemma lookup_store_self (st : CounterState) (k : LabelKey) (v : Int) :
    lookupCounter (storeCounter st k v) k = some v := by
  induction st with
  | nil => simp [storeCounter, lookupCounter]
  | cons e rest ih =>
      by_cases h : e.1 = k <;> simp [storeCounter, lookupCounter, h, ih]

lemma lookup_store_ne (st : CounterState) (k k2 : LabelKey) (v : Int)
    (h : k2 ≠ k) :
    lookupCounter (storeCounter st k v) k2 = lookupCounter st k2 := by
  induction st with
  | nil => simp [storeCounter, lookupCounter, Ne.symm h]
  | cons e rest ih =>
      by_cases he : e.1 = k
      · simp [storeCounter, lookupCounter, he, Ne.symm h]
      · by_cases he2 : e.1 = k2 <;>
          simp [storeCounter, lookupCounter, he, he2, h, ih]

lemma setCounterSet_lookup (st : CounterState) (v : Int) (dk : LabelSet) :
    (lookupCounter (setCounterSet st v dk).counterMap (Hash dk)).getD 0 = v := by
  unfold setCounterSet
  by_cases h : (lookupCounter st (Hash dk)).getD 0 = v
  · simp [h]
  · simp [h, lookup_store_self]

lemma setCounterSet_lookup_ne (st : CounterState) (v : Int) (dk : LabelSet)
    (k : LabelKey) (h : k ≠ Hash dk) :
    lookupCounter (setCounterSet st v dk).counterMap k = lookupCounter st k := by
  unfold setCounterSet
  by_cases hv : (lookupCounter st (Hash dk)).getD 0 = v
  · simp [hv]
  · simp [hv, lookup_store_ne st (Hash dk) k v h]

/-- The delta actually sent to the backend by one call (0 when no call). -/
def deltaOf : Option (Int × List (String × String)) → Int
  | none => 0
  | some d => d.1

lemma setCounterSet_delta (st : CounterState) (v : Int) (dk : LabelSet) :
    deltaOf (setCounterSet st v dk).backendAdd
      = v - (lookupCounter st (Hash dk)).getD 0 := by
  unfold setCounterSet
  by_cases h : (lookupCounter st (Hash dk)).getD 0 = v
  · simp [h, deltaOf]
  · simp [h, deltaOf]

lemma runSets_sum (dk : LabelSet) (vs : List Int) (st : CounterState) :
    (runSets dk vs st).2.sum
      = (lookupCounter (runSets dk vs st).1 (Hash dk)).getD 0
        - (lookupCounter st (Hash dk)).getD 0 := by
  induction vs generalizing st with
  | nil => simp [runSets]
  | cons v vs ih =>
      have hd := setCounterSet_delta st v dk
      have hl := setCounterSet_lookup st v dk
      cases hb : (setCounterSet st v dk).backendAdd with
      | none =>
          simp only [runSets, hb, List.nil_append]
          rw [ih]
          have : deltaOf (setCounterSet st v dk).backendAdd = 0 := by
            rw [hb]; rfl
          rw [this] at hd
          omega
      | some d =>
          simp only [runSets, hb, List.cons_append, List.nil_append, List.sum_cons]
          rw [ih]
          have : deltaOf (setCounterSet st v dk).backendAdd = d.1 := by
            rw [hb]; rfl
          rw [this] at hd
          omega

lemma runSets_getLast (dk : LabelSet) (vs : List Int) (st : CounterState)
    (h : vs ≠ []) :
    (lookupCounter (runSets dk vs st).1 (Hash dk)).getD 0 = vs.getLastD 0 := by
  induction vs generalizing st with
  | nil => exact absurd rfl h
  | cons v vs ih =>
      cases vs with
      | nil =>
          simp [runSets, setCounterSet_lookup]
      | cons v2 vs2 =>
          have := ih ((setCounterSet st v dk).counterMap) (by simp)
          simpa [runSets, List.getLastD_cons] using this

/-- Claim C1: over any sequence of Set calls with one fixed label mapping,
the deltas actually added to the backend counter sum to the last value set
(minus the implicit baseline 0), and a Set whose value equals the previously
recorded value for that label mapping makes no backend call. -/
theorem setCounter_cumulative_deltas (dk : LabelSet) (vs : List Int)
    (h : vs ≠ []) :
    (runSets dk vs []).2.sum = vs.getLastD 0 - 0 ∧
    ∀ (st : CounterState) (v : Int),
      (lookupCounter st (Hash dk)).getD 0 = v →
      (setCounterSet st v dk).backendAdd = none := by
  constructor
  · rw [runSets_sum, runSets_getLast dk vs [] h]
    simp [lookupCounter]
  · intro st v hv
    unfold setCounterSet
    simp [hv]

theorem setCounter_cumulative_deltas_witness :
    (([10, 10, 15] : List Int) ≠ [] ∧
      (runSets [("status", "ok")] [10, 10, 15] []).2.sum
        = ([10, 10, 15] : List Int).getLastD 0 - 0) ∧
    (setCounterSet [([("status", "ok")], 10)] 10 [("status", "ok")]).backendAdd
      = none := by
  have h := setCounter_cumulative_deltas [("status", "ok")] [10, 10, 15]
    (by decide)
  exact ⟨⟨by decide, h.1⟩, h.2 [([("status", "ok")], 10)] 10 (by decide)⟩

/-- Claim C2: the label-set hash is order-independent: two label mappings
with identical key/value pairs (permutations of each other) hash to the same
LabelKey, hence address the same CounterState entry. -/
theorem hash_order_independent (L1 L2 : LabelSet) (h : L1.Perm L2) :
    Hash L1 = Hash L2 ∧
    ∀ st : CounterState, lookupCounter st (Hash L1) = lookupCounter st (Hash L2) := by
  have he : Hash L1 = Hash L2 := by
    apply List.eq_of_perm_of_sorted (r := labelR)
    · exact (List.perm_insertionSort labelR L1).trans
        (h.trans (List.perm_insertionSort labelR L2).symm)
    · exact List.sorted_insertionSort labelR L1
    · exact List.sorted_insertionSort labelR L2
  exact ⟨he, fun st => by rw [he]⟩

theorem hash_order_independent_witness :
    ([("path", "/metrics"), ("status", "ok")] : LabelSet).Perm
      [("status", "ok"), ("path", "/metrics")] ∧
    Hash [("path", "/metrics"), ("status", "ok")]
      = Hash [("status", "ok"), ("path", "/metrics")] := by
  refine ⟨by decide, ?_⟩
  exact (hash_order_independent _ _ (by decide)).1

/-- Claim C10: a Set call with value 0 on a label combination never seen
before is a complete no-op: the absent key reads as baseline 0, which equals
the new value, so no backend call is made and the map is left unchanged
(no entry is created). -/
theorem setZero_fresh_noop (st : CounterState) (dk : LabelSet)
    (h : lookupCounter st (Hash dk) = none) :
    setCounterSet st 0 dk = { counterMap := st, backendAdd := none } := by
  unfold setCounterSet
  simp [h]

theorem setZero_fresh_noop_witness :
    lookupCounter [] (Hash [("op", "push")]) = none ∧
    setCounterSet [] 0 [("op", "push")]
      = { counterMap := [], backendAdd := none } := by
  exact ⟨rfl, setZero_fresh_noop [] [("op", "push")] rfl⟩

lemma hash_content_injective (L1 L2 : LabelSet) (h : Hash L1 = Hash L2) :
    L1.Perm L2 := by
  have h1 := (List.perm_insertionSort labelR L1).symm
  have h2 := List.perm_insertionSort labelR L2
  unfold Hash at h
  rw [h] at h1
  exact h1.trans h2

lemma setCounterSet_fresh (st : CounterState) (v : Int) (dk : LabelSet)
    (h : lookupCounter st (Hash dk) = none) (hv : v ≠ 0) :
    (setCounterSet st v dk).backendAdd = some (v, transformLabels dk) := by
  unfold setCounterSet
  simp [h, hv, Ne.symm hv]

/-- Claim C8: the Set instrument keeps independent baselines per distinct
label content: from an empty map, Set(A, 5) then Set(B, 3) emit deltas 5 and
3 respectively, and any Set call on label mapping A leaves the recorded state
of every other key unchanged. -/
theorem setCounter_independent_baselines (A B : LabelSet) (h : ¬ A.Perm B) :
    (setCounterSet [] 5 A).backendAdd = some (5, transformLabels A) ∧
    (setCounterSet (setCounterSet [] 5 A).counterMap 3 B).backendAdd
      = some (3, transformLabels B) ∧
    ∀ (st : CounterState) (v : Int) (k : LabelKey), k ≠ Hash A →
      lookupCounter (setCounterSet st v A).counterMap k = lookupCounter st k := by
  have hne : Hash B ≠ Hash A := fun he => h (hash_content_injective A B he.symm)
  refine ⟨?_, ?_, ?_⟩
  · exact setCounterSet_fresh [] 5 A rfl (by norm_num)
  · have hB : lookupCounter (setCounterSet [] 5 A).counterMap (Hash B) = none := by
      rw [setCounterSet_lookup_ne [] 5 A (Hash B) hne]
      rfl
    exact setCounterSet_fresh _ 3 B hB (by norm_num)
  · exact fun st v k hk => setCounterSet_lookup_ne st v A k hk

theorem setCounter_independent_baselines_witness :
    ¬ ([("a", "1")] : LabelSet).Perm [("b", "2")] ∧
    (setCounterSet [] 5 [("a", "1")]).backendAdd
      = some (5, transformLabels [("a", "1")]) ∧
    (setCounterSet (setCounterSet [] 5 [("a", "1")]).counterMap 3
        [("b", "2")]).backendAdd = some (3, transformLabels [("b", "2")]) ∧
    lookupCounter (setCounterSet [([("b", "2")], 3)] 7 [("a", "1")]).counterMap
        (Hash [("b", "2")])
      = lookupCounter [([("b", "2")], 3)] (Hash [("b", "2")]) := by
  have h := setCounter_independent_baselines [("a", "1")] [("b", "2")]
    (by decide)
  exact ⟨by decide, h.1, h.2.1,
    h.2.2 [([("b", "2")], 3)] 7 (Hash [("b", "2")]) (by decide)⟩

/-- The single shared (value, labels) slot of a Gauge instrument
(`gauge` struct, stats.go): one int64 and one attribute list behind a
reader/writer lock, shared across all label combinations. -/
structure GaugeState where
  val : Int
  labels : List (String × String)
deriving DecidableEq

/-- `metricsProvider.NewGauge` allocates the slot zero-initialized:
`new(int64)` is 0 and `new([]attribute.KeyValue)` is the empty list. -/
def gaugeInit : GaugeState := { val := 0, labels := [] }

/-- `gauge.Set` (stats.go lines 169-181): overwrites the single shared
(value, labels) pair, whatever label mapping is supplied. -/
def gaugeSet (_g : GaugeState) (intVal : Int) (decodedKey : LabelSet) :
    GaugeState :=
  { val := intVal, labels := transformLabels decodedKey }

/-- The sampling callback registered in `NewGauge`: reads the pair and
reports it unchanged (no computation). -/
def gaugeObserve (g : GaugeState) : Int × List (String × String) :=
  (g.val, g.labels)

def runGaugeSets (g : GaugeState) : List (Int × LabelSet) → GaugeState
  | [] => g
  | c :: cs => runGaugeSets (gaugeSet g c.1 c.2) cs

/-- Claim C4: the Gauge holds exactly one (value, labels) slot shared across
all label combinations: after any nonempty sequence of Set calls, the stored
pair is exactly that of the last call, regardless of the label sets used. -/
theorem gauge_single_shared_slot (g : GaugeState)
    (calls : List (Int × LabelSet)) (h : calls ≠ []) :
    runGaugeSets g calls =
      { val := (calls.getLastD (0, [])).1,
        labels := transformLabels (calls.getLastD (0, [])).2 } := by
  induction calls generalizing g with
  | nil => exact absurd rfl h
  | cons c cs ih =>
      cases cs with
      | nil => simp [runGaugeSets, gaugeSet]
      | cons c2 cs2 =>
          have := ih (gaugeSet g c.1 c.2) (by simp)
          simpa [runGaugeSets, List.getLastD_cons] using this

theorem gauge_single_shared_slot_witness :
    ([((4 : Int), [("a", "1")]), (9, [("b", "2")])] :
        List (Int × LabelSet)) ≠ [] ∧
    runGaugeSets gaugeInit [((4 : Int), [("a", "1")]), (9, [("b", "2")])]
      = { val := 9, labels := transformLabels [("b", "2")] } := by
  exact ⟨by decide,
    gauge_single_shared_slot gaugeInit
      [((4 : Int), [("a", "1")]), (9, [("b", "2")])] (by decide)⟩

/-- Claim C9: before any Set call, the Gauge sampling callback reports the
zero value with an empty label set, and on any state it returns exactly the
stored snapshot with no further computation. -/
theorem gauge_initial_observation :
    gaugeObserve gaugeInit = (0, []) ∧
    ∀ g : GaugeState, gaugeObserve g = (g.val, g.labels) :=
  ⟨rfl, fun _ => rfl⟩

/-- Modelled from the spec: `hashstructure.Hash` (external library) fails
only when the hashing primitive cannot process its input; on a well-formed
string-to-string mapping it always succeeds, so the model returns `ok` on
every LabelSet. -/
def hashE (decodedKey : LabelSet) : Except String LabelKey :=
  .ok (Hash decodedKey)

/-- `setCounter.Set` with its fatal branch explicit: `none` models
`log.Fatal("This should never happen")` terminating the process. -/
def setCounterSetChecked (counterMap : CounterState) (intVal : Int)
    (decodedKey : LabelSet) : Option SetResult :=
  match hashE decodedKey with
  | .error _ => none
  | .ok keyHash =>
    let labels := transformLabels decodedKey
    let oldVal := (lookupCounter counterMap keyHash).getD 0
    let diff := intVal - oldVal
    some (if oldVal = intVal then
            { counterMap := counterMap, backendAdd := none }
          else
            { counterMap := storeCounter counterMap keyHash intVal,
              backendAdd := some (diff, labels) })

/-- Claim C7: on every well-formed label mapping the hashing primitive
succeeds, so the fatal-error branch of `setCounter.Set` is never taken: the
call always completes and agrees with the fatal-free semantics. -/
theorem hash_fatal_branch_unreachable (st : CounterState) (v : Int)
    (dk : LabelSet) :
    setCounterSetChecked st v dk = some (setCounterSet st v dk) := rfl

/-- `PrometheusOpts` (stats.go): exposition port and route. -/
structure PrometheusOpts where
  Port : Nat
  MetricsPath : String
deriving DecidableEq

/-- `PrometheusOpts.initDefaults` (stats.go): port 0 becomes 9091, empty
path becomes "/metrics". -/
def initDefaults (p : PrometheusOpts) : PrometheusOpts :=
  { Port := if p.Port = 0 then 9091 else p.Port,
    MetricsPath := if p.MetricsPath = "" then "/metrics" else p.MetricsPath }

/-- Outcome of `NewPrometheusMetricsProvider`: the value returned to the
caller, whether the listener goroutine was spawned, the error (if any) that
`server.ListenAndServe` produced inside that goroutine — discarded by
`_ = server.ListenAndServe()` — and whether the call panicked. -/
structure ConstructResult where
  result : Except String Unit
  listenerGoroutineStarted : Bool
  discardedListenError : Option String
  panicked : Bool

/-- `NewPrometheusMetricsProvider` (stats.go lines 39-73).  The two
environment facts it depends on are passed as flags: whether
`prometheus.New` fails (modelled from the spec: exporter construction is
external), and whether the configured port is already bound at the OS level.
The port bind happens only inside the spawned goroutine and its error is
discarded, so it cannot influence the returned value. -/
def NewPrometheusMetricsProvider (exporterFails portBound : Bool)
    (opts : PrometheusOpts) : ConstructResult :=
  let _o := initDefaults opts
  if exporterFails then
    { result := .error "failed to initialize prometheus exporter",
      listenerGoroutineStarted := false,
      discardedListenError := none,
      panicked := false }
  else
    { result := .ok (),
      listenerGoroutineStarted := true,
      discardedListenError :=
        if portBound then some "listen: address already in use" else none,
      panicked := false }

def resultIsOk : Except String Unit → Bool
  | .ok _ => true
  | .error _ => false

/-- Claim C3 counterexample: with the exporter constructing fine and the
port already bound, construction still returns success to the caller and the
listener goroutine is still started, contradicting the claim that it returns
an error and starts no listener. -/
theorem provider_bound_port_counterexample :
    (NewPrometheusMetricsProvider false true
        { Port := 9091, MetricsPath := "/metrics" }).result = .ok () ∧
    (NewPrometheusMetricsProvider false true
        { Port := 9091, MetricsPath := "/metrics" }).listenerGoroutineStarted
      = true ∧
    (NewPrometheusMetricsProvider false true
        { Port := 9091, MetricsPath := "/metrics" }).discardedListenError
      = some "listen: address already in use" :=
  ⟨rfl, rfl, rfl⟩

/-- Claim C3 (amended): construction returns an error exactly when the
exporter cannot be constructed; an already-bound port does not make
construction fail — the listener goroutine is still started and its bind
error is silently discarded — and in no case does the call panic. -/
theorem provider_construction_errors (exporterFails portBound : Bool)
    (opts : PrometheusOpts) :
    resultIsOk (NewPrometheusMetricsProvider exporterFails portBound opts).result
      = !exporterFails ∧
    (NewPrometheusMetricsProvider exporterFails portBound opts).panicked
      = false ∧
    (NewPrometheusMetricsProvider exporterFails portBound opts).listenerGoroutineStarted
      = !exporterFails ∧
    (NewPrometheusMetricsProvider exporterFails portBound opts).discardedListenError.isSome
      = (!exporterFails && portBound) := by
  cases exporterFails <;> cases portBound <;> exact ⟨rfl, rfl, rfl, rfl⟩

/-- The read phase of `setCounter.Set`: `oldVal := c.counterMap[keyHash]`
(zero value when absent).  The `setCounter` struct holds no lock, so nothing
prevents another call from running between this read and the write phase. -/
def raceRead (m : CounterState) (dk : LabelSet) : Int :=
  (lookupCounter m (Hash dk)).getD 0

/-- The write phase of `setCounter.Set`: compare against the locally read
`oldVal`, and unless equal, store the new value and add the difference. -/
def raceWrite (m : CounterState) (dk : LabelSet) (v oldVal : Int) :
    CounterState × List Int :=
  if oldVal = v then (m, []) else (storeCounter m (Hash dk) v, [v - oldVal])

/-- An interleaving of two concurrent Set calls on the same label mapping in
which both calls perform their read phase before either performs its write
phase: read1; read2; write1; write2.  Nothing in `setCounter` forbids this
schedule. -/
def unsyncInterleaving (dk : LabelSet) (v1 v2 : Int) : CounterState × List Int :=
  let old1 := raceRead [] dk
  let old2 := raceRead [] dk
  let r1 := raceWrite [] dk v1 old1
  let r2 := raceWrite r1.1 dk v2 old2
  (r2.1, r1.2 ++ r2.2)

/-- Claim C5 (code defect): `setCounter` holds no mutual-exclusion lock, so
the lookup, delta computation and store of `Set` do not form a critical
section; in the unsynchronized interleaving of Set(dk, 5) and Set(dk, 3)
both calls read baseline 0, the backend receives deltas summing to 8 while
the recorded value is 3 — a corrupted cumulative total. -/
theorem setCounter_unsynchronized_lost_update :
    (unsyncInterleaving [("status", "ok")] 5 3).2.sum = 8 ∧
    (lookupCounter (unsyncInterleaving [("status", "ok")] 5 3).1
        (Hash [("status", "ok")])).getD 0 = 3 ∧
    (unsyncInterleaving [("status", "ok")] 5 3).2.sum ≠
      (lookupCounter (unsyncInterleaving [("status", "ok")] 5 3).1
        (Hash [("status", "ok")])).getD 0 := by
  refine ⟨?_, ?_, ?_⟩ <;> decide

/-- Micro-step state of one `gauge.Set` call (the writer) running
concurrently with one sampling callback (the reader), following stats.go:
the writer does Lock; store labels; store val; Unlock (pc 0..4), the reader
does RLock; read val; read labels; RUnlock (pc 0..4).  The RWMutex is
modelled by the acquisition guards: Lock blocks while the reader is inside
its critical section and RLock blocks while the writer is inside its own. -/
structure RWState where
  wpc : Nat
  rpc : Nat
  val : Int
  labels : List (String × String)
  obsVal : Int
  obsLabels : List (String × String)
deriving DecidableEq

def rwStep (v1 : Int) (l1 : List (String × String)) (c : Bool) (s : RWState) :
    Option RWState :=
  if c then
    if s.wpc = 0 then
      if s.rpc = 0 ∨ s.rpc = 4 then some { s with wpc := 1 } else none
    else if s.wpc = 1 then some { s with labels := l1, wpc := 2 }
    else if s.wpc = 2 then some { s with val := v1, wpc := 3 }
    else if s.wpc = 3 then some { s with wpc := 4 }
    else none
  else
    if s.rpc = 0 then
      if s.wpc = 0 ∨ s.wpc = 4 then some { s with rpc := 1 } else none
    else if s.rpc = 1 then some { s with obsVal := s.val, rpc := 2 }
    else if s.rpc = 2 then some { s with obsLabels := s.labels, rpc := 3 }
    else if s.rpc = 3 then some { s with rpc := 4 }
    else none

/-- Run a schedule (true = writer step, false = reader step); succeeds only
if every scheduled step was enabled and both threads completed. -/
def rwRun (v1 : Int) (l1 : List (String × String)) :
    List Bool → RWState → Option RWState
  | [], s => if s.wpc = 4 ∧ s.rpc = 4 then some s else none
  | c :: cs, s =>
    match rwStep v1 l1 c s with
    | none => none
    | some s2 => rwRun v1 l1 cs s2

/-- Initial state: the gauge currently holds the pair (v0, l0); the reader's
local observation registers start at arbitrary zero values. -/
def rwInit (v0 : Int) (l0 : List (String × String)) : RWState :=
  { wpc := 0, rpc := 0, val := v0, labels := l0, obsVal := 0, obsLabels := [] }

def rwInv (v0 v1 : Int) (l0 l1 : List (String × String)) (s : RWState) : Prop :=
  s.wpc ≤ 4 ∧ s.rpc ≤ 4 ∧
  ¬(1 ≤ s.wpc ∧ s.wpc ≤ 3 ∧ 1 ≤ s.rpc ∧ s.rpc ≤ 3) ∧
  (s.wpc ≤ 1 → s.val = v0 ∧ s.labels = l0) ∧
  (s.wpc = 2 → s.val = v0 ∧ s.labels = l1) ∧
  (3 ≤ s.wpc → s.val = v1 ∧ s.labels = l1) ∧
  (s.rpc = 2 → (s.wpc = 0 ∧ s.obsVal = v0) ∨ (s.wpc = 4 ∧ s.obsVal = v1)) ∧
  (s.rpc = 3 → (s.wpc = 0 ∧ s.obsVal = v0 ∧ s.obsLabels = l0) ∨
               (s.wpc = 4 ∧ s.obsVal = v1 ∧ s.obsLabels = l1)) ∧
  (s.rpc = 4 → (s.obsVal = v0 ∧ s.obsLabels = l0) ∨
               (s.obsVal = v1 ∧ s.obsLabels = l1))

lemma rwStep_inv (v0 v1 : Int) (l0 l1 : List (String × String)) (c : Bool)
    (s s2 : RWState) (h : rwInv v0 v1 l0 l1 s)
    (hs : rwStep v1 l1 c s = some s2) : rwInv v0 v1 l0 l1 s2 := by
  obtain ⟨wpc, rpc, val, labels, obsVal, obsLabels⟩ := s
  obtain ⟨hw, hr, hx, h1, h2, h3, h4, h5, h6⟩ := h
  simp only at hw hr hx h1 h2 h3 h4 h5 h6
  interval_cases wpc <;> interval_cases rpc <;> cases c <;>
    simp [rwStep] at hs <;>
    (try subst hs) <;>
    simp_all [rwInv]

lemma rwRun_inv (v0 v1 : Int) (l0 l1 : List (String × String)) :
    ∀ (sched : List Bool) (s r : RWState), rwInv v0 v1 l0 l1 s →
      rwRun v1 l1 sched s = some r →
      rwInv v0 v1 l0 l1 r ∧ r.wpc = 4 ∧ r.rpc = 4 := by
  intro sched
  induction sched with
  | nil =>
      intro s r h hr
      unfold rwRun at hr
      by_cases hc : s.wpc = 4 ∧ s.rpc = 4
      · simp [hc] at hr
        exact hr ▸ ⟨h, hc⟩
      · simp [hc] at hr
  | cons c cs ih =>
      intro s r h hr
      unfold rwRun at hr
      cases hstep : rwStep v1 l1 c s with
      | none => rw [hstep] at hr; exact absurd hr (by simp)
      | some s2 =>
          rw [hstep] at hr
          exact ih s2 r (rwStep_inv v0 v1 l0 l1 c s s2 h hstep) hr

/-- Claim C6: gauge reads and writes are mutually exclusive over the whole
(value, labels) pair: for every lock-respecting interleaving of one
gauge.Set(l1, v1) with one sampling callback, starting from a gauge holding
(v0, l0), the completed callback observed either exactly the previous pair
(v0, l0) or exactly the new pair (v1, l1), never a mixture. -/
theorem gauge_read_no_mixing (v0 v1 : Int) (l0 l1 : List (String × String))
    (sched : List Bool) (r : RWState)
    (h : rwRun v1 l1 sched (rwInit v0 l0) = some r) :
    (r.obsVal = v0 ∧ r.obsLabels = l0) ∨ (r.obsVal = v1 ∧ r.obsLabels = l1) := by
  have hinit : rwInv v0 v1 l0 l1 (rwInit v0 l0) := by
    refine ⟨by simp [rwInit], by simp [rwInit], ?_, ?_, ?_, ?_, ?_, ?_, ?_⟩ <;>
      simp [rwInit]
  obtain ⟨hinv, hw4, hr4⟩ := rwRun_inv v0 v1 l0 l1 sched (rwInit v0 l0) r hinit h
  exact hinv.2.2.2.2.2.2.2.2 hr4

theorem gauge_read_no_mixing_witness :
    rwRun 9 [("b", "y")] [false, false, false, false, true, true, true, true]
        (rwInit 7 [("a", "x")])
      = some { wpc := 4, rpc := 4, val := 9, labels := [("b", "y")],
               obsVal := 7, obsLabels := [("a", "x")] } ∧
    ((({ wpc := 4, rpc := 4, val := 9, labels := [("b", "y")],
         obsVal := 7, obsLabels := [("a", "x")] } : RWState).obsVal = 7 ∧
      ({ wpc := 4, rpc := 4, val := 9, labels := [("b", "y")],
         obsVal := 7, obsLabels := [("a", "x")] } : RWState).obsLabels
        = [("a", "x")]) ∨
     (({ wpc := 4, rpc := 4, val := 9, labels := [("b", "y")],
         obsVal := 7, obsLabels := [("a", "x")] } : RWState).obsVal = 9 ∧
      ({ wpc := 4, rpc := 4, val := 9, labels := [("b", "y")],
         obsVal := 7, obsLabels := [("a", "x")] } : RWState).obsLabels
        = [("b", "y")])) := by
  refine ⟨by decide, ?_⟩
  exact gauge_read_no_mixing 7 9 [("a", "x")] [("b", "y")]
    [false, false, false, false, true, true, true, true] _ (by decide)

end Bumblebee
